import Mathlib

/-!
Shallow embedding of the ovos-PHAL-plugin-mk1 serial bridge.

The embedding covers, from ovos_PHAL_plugin_mk1/arduino.py, the reader loop
(EnclosureReader.read / EnclosureReader.process) and the writer loop
(EnclosureWriter.flush / EnclosureWriter.write together with its bounded
command queue), and, from ovos_PHAL_plugin_mk1/__init__.py, the eye-color
snapshot kept by MycroftMark1 and the command formatters on_display,
on_eyes_color, on_eyes_set_pixel, on_eyes_fill and handle_get_color.

Bus messages are modelled as a type string plus a key/value payload; calls to
bus.emit and time.sleep performed by EnclosureReader.process are recorded as a
list of actions in program order, and the fragments enqueued by on_display are
recorded likewise.
-/

/-- A Python value appearing in a bus-message payload. -/
inductive PyVal
  | pyBool (b : Bool)
  | pyInt (n : Int)
  | pyStr (s : String)
  | pyPixels (l : List (Int × Int × Int))
deriving DecidableEq

/-- A bus message, mirroring Message(msg_type, data) from ovos_bus_client:
a type string and a key/value payload. -/
structure Message where
  msgType : String
  data : List (String × PyVal)
deriving DecidableEq

/-- An observable step of EnclosureReader.process: a bus.emit of a message, or
a time.sleep recorded in milliseconds. -/
inductive BusAct
  | emit (m : Message)
  | sleepMs (ms : Nat)
deriving DecidableEq

/-- Whether the first character list is an initial segment of the second. -/
def starts_with_chars : List Char → List Char → Bool
  | [], _ => true
  | _ :: _, [] => false
  | a :: as, b :: bs => a = b && starts_with_chars as bs

/-- Whether the needle occurs contiguously inside the haystack. -/
def has_sub_chars (needle : List Char) : List Char → Bool
  | [] => needle.isEmpty
  | c :: t => starts_with_chars needle (c :: t) || has_sub_chars needle t

/-- Python's substring test, the expression sub in s on str values. -/
def pyIn (sub s : String) : Bool := has_sub_chars sub.data s.data

/-- Lines 72-73 of arduino.py: the pass-through emit of the raw line, which is
suppressed exactly when the line contains "mycroft.stop". -/
def passthrough_acts (data : String) : List BusAct :=
  if pyIn ("mycroft.stop") data then [] else [BusAct.emit ⟨data, []⟩]

/-- Lines 75-78 of arduino.py: the version-acknowledgement marker. -/
def version_acts (data : String) : List BusAct :=
  if pyIn ("Command: system.version") data then
    [BusAct.emit ⟨"enclosure.started", []⟩]
  else []

/-- Lines 80-81 of arduino.py: the stop-request marker. -/
def stop_acts (data : String) : List BusAct :=
  if pyIn ("mycroft.stop") data then [BusAct.emit ⟨"mycroft.stop", []⟩] else []

/-- Lines 83-85 of arduino.py: the volume-up marker. -/
def volume_up_acts (data : String) : List BusAct :=
  if pyIn ("volume.up") data then
    [BusAct.emit ⟨"mycroft.volume.increase", [("play_sound", PyVal.pyBool true)]⟩]
  else []

/-- Lines 87-89 of arduino.py: the volume-down marker. -/
def volume_down_acts (data : String) : List BusAct :=
  if pyIn ("volume.down") data then
    [BusAct.emit ⟨"mycroft.volume.decrease", [("play_sound", PyVal.pyBool true)]⟩]
  else []

/-- Lines 91-100 of arduino.py: the shutdown marker.  time.sleep(0.5) is
recorded as a 500 millisecond sleep between the mouth reset and the
system.shutdown emit. -/
def shutdown_acts (data : String) : List BusAct :=
  if pyIn ("unit.shutdown") data then
    [BusAct.emit ⟨"enclosure.eyes.color",
       [("r", PyVal.pyInt 70), ("g", PyVal.pyInt 65), ("b", PyVal.pyInt 69)]⟩,
     BusAct.emit ⟨"enclosure.eyes.timedspin", [("length", PyVal.pyInt 12000)]⟩,
     BusAct.emit ⟨"enclosure.mouth.reset", []⟩,
     BusAct.sleepMs 500,
     BusAct.emit ⟨"system.shutdown", []⟩]
  else []

/-- Lines 102-109 of arduino.py: the reboot marker. -/
def reboot_acts (data : String) : List BusAct :=
  if pyIn ("unit.reboot") data then
    [BusAct.emit ⟨"enclosure.eyes.color",
       [("r", PyVal.pyInt 70), ("g", PyVal.pyInt 65), ("b", PyVal.pyInt 69)]⟩,
     BusAct.emit ⟨"enclosure.eyes.spin", []⟩,
     BusAct.emit ⟨"enclosure.mouth.reset", []⟩,
     BusAct.sleepMs 500,
     BusAct.emit ⟨"system.reboot", []⟩]
  else []

/-- Lines 111-112 of arduino.py: the wifi-setup marker. -/
def setwifi_acts (data : String) : List BusAct :=
  if pyIn ("unit.setwifi") data then [BusAct.emit ⟨"system.wifi.setup", []⟩] else []

/-- Lines 113-114 of arduino.py: the factory-reset marker. -/
def factory_reset_acts (data : String) : List BusAct :=
  if pyIn ("unit.factory-reset") data then
    [BusAct.emit ⟨"system.factory.reset", []⟩]
  else []

/-- Lines 115-117 of arduino.py: the ssh-enable marker. -/
def ssh_enable_acts (data : String) : List BusAct :=
  if pyIn ("unit.enable-ssh") data then [BusAct.emit ⟨"system.ssh.enable", []⟩] else []

/-- Lines 118-120 of arduino.py: the ssh-disable marker. -/
def ssh_disable_acts (data : String) : List BusAct :=
  if pyIn ("unit.disable-ssh") data then [BusAct.emit ⟨"system.ssh.disable", []⟩] else []

/-- EnclosureReader.process (arduino.py lines 68-120): each marker test is an
independent if-statement, so the emitted actions are the concatenation of the
per-marker blocks in source order. -/
def process (data : String) : List BusAct :=
  passthrough_acts data ++ version_acts data ++ stop_acts data ++
  volume_up_acts data ++ volume_down_acts data ++ shutdown_acts data ++
  reboot_acts data ++ setwifi_acts data ++ factory_reset_acts data ++
  ssh_enable_acts data ++ ssh_disable_acts data

/-- The full set of marker substrings tested by EnclosureReader.process. -/
def markers : List String :=
  ["Command: system.version", "mycroft.stop", "volume.up", "volume.down",
   "unit.shutdown", "unit.reboot", "unit.setwifi", "unit.factory-reset",
   "unit.enable-ssh", "unit.disable-ssh"]

/-- The five consecutive actions of the unit.shutdown block of
EnclosureReader.process (arduino.py lines 91-100). -/
def shutdown_sequence : List BusAct :=
  [BusAct.emit ⟨"enclosure.eyes.color",
     [("r", PyVal.pyInt 70), ("g", PyVal.pyInt 65), ("b", PyVal.pyInt 69)]⟩,
   BusAct.emit ⟨"enclosure.eyes.timedspin", [("length", PyVal.pyInt 12000)]⟩,
   BusAct.emit ⟨"enclosure.mouth.reset", []⟩,
   BusAct.sleepMs 500,
   BusAct.emit ⟨"system.shutdown", []⟩]

/-- MycroftMark1._num_pixels, set to 12 * 2 in __init__ (line 60). -/
def _num_pixels : Nat := 12 * 2

/-- MycroftMark1._current_rgb as initialized in __init__ (line 61). -/
def init_current_rgb : List (Int × Int × Int) :=
  List.replicate _num_pixels (255, 255, 255)

/-- The RGB-packing expression (r * 65536) + (g * 256) + b shared by
on_eyes_color (line 242) and on_eyes_set_pixel (line 292). -/
def packRGB (r g b : Int) : Int := (r * 65536) + (g * 256) + b

/-- MycroftMark1.on_eyes_color (lines 230-244): replaces the whole snapshot
with _num_pixels copies of the triple and writes the packed color.  Returns
the new snapshot and the written command. -/
def on_eyes_color (st : List (Int × Int × Int)) (r g b : Int) :
    List (Int × Int × Int) × String :=
  let color := packRGB r g b
  (List.replicate _num_pixels (r, g, b), "eyes.color=" ++ toString color)

/-- Modelled from the spec: Python list item assignment l[i] = v, which is not
part of this repository.  A negative index counts from the end; an index out
of range raises IndexError, modelled as none. -/
def pyListSet {α : Type} (l : List α) (i : Int) (v : α) : Option (List α) :=
  if 0 ≤ i then
    if i.toNat < l.length then some (l.set i.toNat v) else none
  else
    if (-i).toNat ≤ l.length then some (l.set (l.length - (-i).toNat) v) else none

/-- MycroftMark1.on_eyes_set_pixel (lines 283-293): updates one snapshot entry
and writes the packed color.  The list assignment precedes the write, so an
IndexError (none) yields no write at all. -/
def on_eyes_set_pixel (st : List (Int × Int × Int)) (idx : Int) (r g b : Int) :
    Option (List (Int × Int × Int) × String) :=
  match pyListSet st idx (r, g, b) with
  | none => none
  | some st2 =>
    let color := packRGB r g b
    some (st2, "eyes.set=" ++ toString idx ++ "," ++ toString color)

/-- MycroftMark1.handle_get_color (lines 115-121): publishes the current
snapshot unchanged under the key "pixels". -/
def handle_get_color (st : List (Int × Int × Int)) : Message :=
  ⟨"enclosure.eyes.rgb", [("pixels", PyVal.pyPixels st)]⟩

/-- Modelled from the spec: Python's round() builtin, which is not part of this
repository, applied to the exact value n / 100 (round-half-to-even).  In
on_eyes_fill the float expression 23.0 * percent / 100.0 is exact at every
half-integer that can arise for an integer percent, so exact rational rounding
agrees with the float computation there. -/
def pyRound100 (n : Int) : Int :=
  let q := n / 100
  let r := n % 100
  if 2 * r < 100 then q
  else if 100 < 2 * r then q + 1
  else if q % 2 = 0 then q else q + 1

/-- MycroftMark1.on_eyes_fill (lines 196-201): amount = int(round(23.0 *
percent / 100.0)), written as eyes.fill=amount. -/
def on_eyes_fill (percent : Int) : String :=
  let amount := pyRound100 (23 * percent)
  "eyes.fill=" ++ toString amount

/-- The formatted icon command of MycroftMark1.on_display (lines 368-383):
"mouth.icon=" ++ x-offset ++ y-offset ++ clear-previous ++ image code, where
clear-previous is 1 exactly when str(clearPrev) == "True". -/
def mkIconMessage (xOffset yOffset : Int) (clearPrev : String) (code : List Char) :
    List Char :=
  let cp : Nat := if clearPrev = "True" then 1 else 0
  ("mouth.icon=" ++ "x=" ++ toString xOffset ++ "," ++ "y=" ++ toString yOffset ++
    "," ++ "cP=" ++ toString cp ++ ",").data ++ code

/-- An observable step of MycroftMark1.on_display: a writer.write of a command
(a fragment) or a sleep recorded in milliseconds. -/
inductive MouthAct
  | enqueue (s : List Char)
  | sleepMs (ms : Nat)
deriving DecidableEq

/-- MycroftMark1.on_display (lines 355-393): if the formatted command exceeds
60 characters it is split into message[:31] + "$" and "mouth.icon=$" +
message[31:], enqueued as two fragments with a 250 millisecond sleep between
them; otherwise a 100 millisecond sleep precedes the single fragment. -/
def on_display (xOffset yOffset : Int) (clearPrev : String) (code : List Char) :
    List MouthAct :=
  let message := mkIconMessage xOffset yOffset clearPrev code
  if 60 < message.length then
    [MouthAct.enqueue (message.take 31 ++ ['$']),
     MouthAct.sleepMs 250,
     MouthAct.enqueue (("mouth.icon=$").data ++ message.drop 31)]
  else
    [MouthAct.sleepMs 100, MouthAct.enqueue message]

/-- The fragments enqueued by on_display, in order. -/
def display_fragments (xOffset yOffset : Int) (clearPrev : String)
    (code : List Char) : List (List Char) :=
  (on_display xOffset yOffset clearPrev code).filterMap fun a =>
    match a with
    | MouthAct.enqueue s => some s
    | MouthAct.sleepMs _ => none

/-- Modelled from the spec: the bounded FIFO queue.Queue of the Python standard
library, which is not part of this repository, holding the pending command
strings of EnclosureWriter. -/
structure CmdQueue where
  capacity : Nat
  items : List String
deriving DecidableEq

/-- Modelled from the spec: queue.Queue.put appends to the tail; on a full
queue the producer blocks until space is available, modelled as none (no
exception is raised and nothing is dropped). -/
def queue_put (q : CmdQueue) (c : String) : Option CmdQueue :=
  if q.items.length < q.capacity then some ⟨q.capacity, q.items ++ [c]⟩ else none

/-- EnclosureWriter.write (arduino.py lines 160-161): enqueue str(command). -/
def write (q : CmdQueue) (command : String) : Option CmdQueue := queue_put q command

/-- Enqueue a list of commands in order via write. -/
def write_all (q : CmdQueue) : List String → Option CmdQueue
  | [] => some q
  | c :: cs =>
    match write q c with
    | some q2 => write_all q2 cs
    | none => none

/-- The commands queue built by EnclosureWriter.__init__ (arduino.py lines
142-148) with the default size of 16, as used by MycroftMark1.__init__. -/
def enclosure_writer_commands : CmdQueue := ⟨16, []⟩

/-- The outcome of one serial.write call: success, or a raised exception. -/
inductive WriteOutcome
  | ok
  | raised (e : String)
deriving DecidableEq

/-- The observable effects of one iteration of EnclosureWriter.flush. -/
structure FlushResult where
  written : Option String
  taskDone : Bool
  logged : Bool
  continues : Bool
deriving DecidableEq

/-- One iteration of the while body of EnclosureWriter.flush (arduino.py lines
151-158): get() dequeues the head (blocking on an empty queue, modelled as
none), the command plus a newline is written, and task_done() runs only if the
write did not raise; a raised exception is caught, logged, and the loop
continues. -/
def flush_step (q : CmdQueue) (outcome : WriteOutcome) :
    Option (CmdQueue × FlushResult) :=
  match q.items with
  | [] => none
  | c :: rest =>
    let cmd := c ++ "\n"
    match outcome with
    | WriteOutcome.ok =>
      some (⟨q.capacity, rest⟩, ⟨some cmd, true, false, true⟩)
    | WriteOutcome.raised _ =>
      some (⟨q.capacity, rest⟩, ⟨none, false, true, true⟩)

/-- Run EnclosureWriter.flush for one iteration per listed write outcome,
collecting the strings actually written to the serial port. -/
def flush_run (q : CmdQueue) : List WriteOutcome → List String
  | [] => []
  | o :: os =>
    match flush_step q o with
    | none => []
    | some (q2, r) =>
      (match r.written with
       | some w => [w]
       | none => []) ++ flush_run q2 os

/-- The unconditional two-byte strip serial.readline()[:-2] of
EnclosureReader.read (arduino.py line 52); Python's slice b[:-2] keeps the
first len - 2 bytes. -/
def strip_terminator (bs : List Nat) : List Nat := bs.take (bs.length - 2)

/-- The Unicode replacement character U+FFFD used by errors='replace'. -/
def replacement_char : Char := Char.ofNat 0xFFFD

/-- A UTF-8 continuation byte. -/
def cont_byte (b : Nat) : Bool := 0x80 ≤ b && b ≤ 0xBF

/-- Constraints on the second byte of a three-byte UTF-8 sequence (no overlong
forms, no surrogates). -/
def cont2_ok (b b2 : Nat) : Bool :=
  if b = 0xE0 then 0xA0 ≤ b2 && b2 ≤ 0xBF
  else if b = 0xED then 0x80 ≤ b2 && b2 ≤ 0x9F
  else cont_byte b2

/-- Constraints on the second byte of a four-byte UTF-8 sequence (no overlong
forms, nothing above U+10FFFF). -/
def cont4_ok (b b2 : Nat) : Bool :=
  if b = 0xF0 then 0x90 ≤ b2 && b2 ≤ 0xBF
  else if b = 0xF4 then 0x80 ≤ b2 && b2 ≤ 0x8F
  else cont_byte b2

/-- Modelled from the spec: Python bytes.decode() in strict mode, which is not
part of this repository; UTF-8 decoding that fails (none) on the first invalid
sequence, as caught by the except UnicodeError branch of EnclosureReader.read. -/
def decode_strict : List Nat → Option (List Char)
  | [] => some []
  | b :: rest =>
    if b < 0x80 then
      Option.map (fun cs => Char.ofNat b :: cs) (decode_strict rest)
    else if 0xC2 ≤ b && b ≤ 0xDF then
      match rest with
      | b2 :: rest2 =>
        if cont_byte b2 then
          Option.map (fun cs => Char.ofNat (0x40 * (b - 0xC0) + (b2 - 0x80)) :: cs)
            (decode_strict rest2)
        else none
      | [] => none
    else if 0xE0 ≤ b && b ≤ 0xEF then
      match rest with
      | b2 :: b3 :: rest3 =>
        if cont2_ok b b2 && cont_byte b3 then
          Option.map
            (fun cs =>
              Char.ofNat (0x1000 * (b - 0xE0) + 0x40 * (b2 - 0x80) + (b3 - 0x80)) :: cs)
            (decode_strict rest3)
        else none
      | _ => none
    else if 0xF0 ≤ b && b ≤ 0xF4 then
      match rest with
      | b2 :: b3 :: b4 :: rest4 =>
        if cont4_ok b b2 && cont_byte b3 && cont_byte b4 then
          Option.map
            (fun cs =>
              Char.ofNat (0x40000 * (b - 0xF0) + 0x1000 * (b2 - 0x80) +
                0x40 * (b3 - 0x80) + (b4 - 0x80)) :: cs)
            (decode_strict rest4)
        else none
      | _ => none
    else none

/-- Recursion core of decode_replace; the fuel only serves the termination
argument and one unit is spent per decoded or replaced sequence, so any fuel
of at least the list length gives the fuel-free behaviour. -/
def decode_replace_go : Nat → List Nat → List Char
  | _, [] => []
  | 0, _ :: _ => []
  | fuel + 1, b :: rest =>
    if b < 0x80 then Char.ofNat b :: decode_replace_go fuel rest
    else if 0xC2 ≤ b && b ≤ 0xDF then
      match rest with
      | b2 :: rest2 =>
        if cont_byte b2 then
          Char.ofNat (0x40 * (b - 0xC0) + (b2 - 0x80)) :: decode_replace_go fuel rest2
        else replacement_char :: decode_replace_go fuel rest
      | [] => replacement_char :: decode_replace_go fuel rest
    else if 0xE0 ≤ b && b ≤ 0xEF then
      match rest with
      | b2 :: b3 :: rest3 =>
        if cont2_ok b b2 && cont_byte b3 then
          Char.ofNat (0x1000 * (b - 0xE0) + 0x40 * (b2 - 0x80) + (b3 - 0x80)) ::
            decode_replace_go fuel rest3
        else replacement_char :: decode_replace_go fuel rest
      | _ => replacement_char :: decode_replace_go fuel rest
    else if 0xF0 ≤ b && b ≤ 0xF4 then
      match rest with
      | b2 :: b3 :: b4 :: rest4 =>
        if cont4_ok b b2 && cont_byte b3 && cont_byte b4 then
          Char.ofNat (0x40000 * (b - 0xF0) + 0x1000 * (b2 - 0x80) +
            0x40 * (b3 - 0x80) + (b4 - 0x80)) :: decode_replace_go fuel rest4
        else replacement_char :: decode_replace_go fuel rest
      | _ => replacement_char :: decode_replace_go fuel rest
    else replacement_char :: decode_replace_go fuel rest

/-- Modelled from the spec: Python bytes.decode with errors='replace', which is
not part of this repository; every undecodable byte is replaced by the
replacement character and decoding always yields a string, never a failure. -/
def decode_replace (bs : List Nat) : List Char := decode_replace_go bs.length bs

/-- Lines 54-59 of arduino.py: strict decode, falling back to permissive
decode with replacement on a UnicodeError, so a line is never discarded for
invalid bytes. -/
def decode_line (data : List Nat) : String :=
  match decode_strict data with
  | some cs => String.mk cs
  | none => String.mk (decode_replace data)

/-- One event seen by the reader loop: serial.readline returned these bytes,
or readline raised an exception, or stop() cleared the alive flag. -/
inductive ReadEvent
  | line (bs : List Nat)
  | readError (e : String)
  | stop
deriving DecidableEq

/-- One iteration of the while body of EnclosureReader.read (arduino.py lines
49-62): the raw bytes are stripped of their last two bytes, a nonempty result
is decoded (permissively on invalid bytes) and handed to process; an exception
is caught and logged, processing nothing. -/
def read_iteration (ev : ReadEvent) : List String :=
  match ev with
  | ReadEvent.line bs =>
    let data := strip_terminator bs
    if data.isEmpty then [] else [decode_line data]
  | ReadEvent.readError _ => []
  | ReadEvent.stop => []

/-- EnclosureReader.read's while-alive loop over a stream of events: every
event is handled in turn, each with its errors isolated, and the loop exits
exactly when a stop event clears the alive flag. -/
def read_run : List ReadEvent → List String
  | [] => []
  | ReadEvent.stop :: _ => []
  | ReadEvent.line bs :: rest => read_iteration (ReadEvent.line bs) ++ read_run rest
  | ReadEvent.readError e :: rest =>
    read_iteration (ReadEvent.readError e) ++ read_run rest

/-! Helper lemmas shared by the claim theorems. -/

theorem write_all_spec : ∀ (cs : List String) (q q2 : CmdQueue),
    write_all q cs = some q2 → q2.capacity = q.capacity ∧ q2.items = q.items ++ cs := by
  intro cs
  induction cs with
  | nil =>
    intro q q2 h
    simp only [write_all, Option.some.injEq] at h
    subst h
    simp
  | cons c cs ih =>
    intro q q2 h
    simp only [write_all] at h
    cases hw : write q c with
    | none => rw [hw] at h; cases h
    | some q1 =>
      rw [hw] at h
      obtain ⟨h1, h2⟩ := ih q1 q2 h
      simp only [write, queue_put] at hw
      by_cases hlt : q.items.length < q.capacity
      · rw [if_pos hlt] at hw
        cases hw
        constructor
        · exact h1
        · rw [h2]; simp
      · rw [if_neg hlt] at hw; cases hw

theorem write_all_total : ∀ (cs : List String) (q : CmdQueue),
    q.items.length + cs.length ≤ q.capacity → ∃ q2, write_all q cs = some q2 := by
  intro cs
  induction cs with
  | nil => intro q _; exact ⟨q, rfl⟩
  | cons c cs ih =>
    intro q h
    have hlt : q.items.length < q.capacity := by
      simp only [List.length_cons] at h; omega
    have hw : write q c = some ⟨q.capacity, q.items ++ [c]⟩ := by
      simp [write, queue_put, hlt]
    obtain ⟨q2, hq2⟩ := ih ⟨q.capacity, q.items ++ [c]⟩
      (by simp only [List.length_append, List.length_cons, List.length_nil] at h ⊢; omega)
    exact ⟨q2, by simp only [write_all, hw, hq2]⟩

theorem flush_run_ok : ∀ (items : List String) (cap : Nat),
    flush_run ⟨cap, items⟩ (List.replicate items.length WriteOutcome.ok) =
      items.map (fun c => c ++ "\n") := by
  intro items
  induction items with
  | nil => intro cap; simp [flush_run]
  | cons c rest ih =>
    intro cap
    simp only [List.length_cons, List.replicate_succ, flush_run, flush_step]
    simpa using ih cap

/-- Claim C7: for all integers r, g, b in 0-255, on_eyes_color and
on_eyes_set_pixel pack the RGB triple into the single integer
r * 65536 + g * 256 + b, with red in the most significant byte (recovering r,
g and b by division and remainder by powers of 256). -/
theorem rgb_packing :
    (∀ (st : List (Int × Int × Int)) (r g b : Int),
      (on_eyes_color st r g b).2 = "eyes.color=" ++ toString (packRGB r g b))
    ∧ (∀ (st : List (Int × Int × Int)) (idx : Int) (r g b : Int)
        (st2 : List (Int × Int × Int)) (cmd : String),
        on_eyes_set_pixel st idx r g b = some (st2, cmd) →
        cmd = "eyes.set=" ++ toString idx ++ "," ++ toString (packRGB r g b))
    ∧ (∀ r g b : Int, 0 ≤ r → r ≤ 255 → 0 ≤ g → g ≤ 255 → 0 ≤ b → b ≤ 255 →
        packRGB r g b = r * 65536 + g * 256 + b
        ∧ packRGB r g b / 65536 = r
        ∧ (packRGB r g b / 256) % 256 = g
        ∧ packRGB r g b % 256 = b) := by
  refine ⟨fun st r g b => rfl, ?_, ?_⟩
  · intro st idx r g b st2 cmd h
    simp only [on_eyes_set_pixel] at h
    cases hp : pyListSet st idx (r, g, b) with
    | none => rw [hp] at h; cases h
    | some st1 =>
      rw [hp] at h
      simp only [Option.some.injEq, Prod.mk.injEq] at h
      exact h.2.symm
  · intro r g b hr0 hr1 hg0 hg1 hb0 hb1
    refine ⟨rfl, ?_, ?_, ?_⟩ <;> simp only [packRGB] <;> omega

/-- Witness for C7 at r = 255, g = 0, b = 0 (and the second sample value),
matching the packed values 16711680 and 65280 named by the spec. -/
theorem rgb_packing_witness :
    (packRGB 255 0 0 = 255 * 65536 + 0 * 256 + 0
      ∧ packRGB 255 0 0 / 65536 = 255
      ∧ (packRGB 255 0 0 / 256) % 256 = 0
      ∧ packRGB 255 0 0 % 256 = 0)
    ∧ packRGB 255 0 0 = 16711680 ∧ packRGB 0 255 0 = 65280 :=
  ⟨rgb_packing.2.2 255 0 0 (by decide) (by decide) (by decide) (by decide)
      (by decide) (by decide),
   by decide, by decide⟩

/-- Claim C8: on_eyes_fill rescales a percentage to the device range 0-23 as
round(23 * percent / 100) with Python's rounding; the rounded value is the
nearest integer (within half a unit), 0-100 percent lands in 0-23, and the
sample points are 0 percent to 0, 100 percent to 23 and 50 percent to 12. -/
theorem eyes_fill_scaling :
    (∀ percent : Int,
      on_eyes_fill percent = "eyes.fill=" ++ toString (pyRound100 (23 * percent)))
    ∧ (∀ n : Int, 100 * pyRound100 n - n ≤ 50 ∧ n - 100 * pyRound100 n ≤ 50)
    ∧ (∀ percent : Int, 0 ≤ percent → percent ≤ 100 →
        0 ≤ pyRound100 (23 * percent) ∧ pyRound100 (23 * percent) ≤ 23)
    ∧ pyRound100 (23 * 0) = 0 ∧ pyRound100 (23 * 100) = 23
    ∧ pyRound100 (23 * 50) = 12 := by
  refine ⟨fun percent => rfl, ?_, ?_, by decide, by decide, by decide⟩
  · intro n
    simp only [pyRound100]
    split_ifs <;> omega
  · intro percent h0 h1
    simp only [pyRound100]
    split_ifs <;> omega

/-- Witness for C8 at 50 percent: the scaled amount is within half a unit of
23 * 50 / 100 and inside 0-23. -/
theorem eyes_fill_scaling_witness :
    0 ≤ pyRound100 (23 * 50) ∧ pyRound100 (23 * 50) ≤ 23 :=
  eyes_fill_scaling.2.2.1 50 (by decide) (by decide)

/-- Claim C9: EnclosureReader.read strips exactly the last two bytes of every
raw read unconditionally; a CR+LF terminated line loses exactly the
terminator, an LF-only line loses its final payload byte, and an unterminated
line loses its final two payload bytes. -/
theorem strip_two_bytes_unconditional :
    (∀ bs : List Nat, strip_terminator bs = bs.take (bs.length - 2))
    ∧ (∀ payload : List Nat, strip_terminator (payload ++ [13, 10]) = payload)
    ∧ (∀ payload : List Nat, strip_terminator (payload ++ [10]) = payload.dropLast)
    ∧ (∀ payload : List Nat, strip_terminator payload = payload.dropLast.dropLast) := by
  refine ⟨fun bs => rfl, ?_, ?_, ?_⟩
  · intro p
    simp only [strip_terminator, List.length_append, List.length_cons, List.length_nil]
    exact List.take_left' (by omega)
  · intro p
    simp only [strip_terminator, List.length_append, List.length_cons, List.length_nil,
      List.take_append_eq_append_take, List.dropLast_eq_take]
    rw [show p.length + (0 + 1) - 2 - p.length = 0 from by omega, List.take_zero,
      List.append_nil]
    congr 1
  · intro p
    simp only [strip_terminator, List.dropLast_eq_take, List.take_take, List.length_take]
    congr 1
    omega

/-- Claim C10: the eye-color snapshot always has exactly 24 entries: it starts
as 24 copies of (255,255,255); on_eyes_color replaces all 24 entries with the
given triple keeping the length; on_eyes_set_pixel at an index in 0-23 changes
only that entry keeping the length; handle_get_color publishes the snapshot
unchanged. -/
theorem eye_rgb_snapshot_invariants :
    init_current_rgb.length = 24
    ∧ (∀ i : Nat, i < 24 → init_current_rgb[i]? = some (255, 255, 255))
    ∧ (∀ (st : List (Int × Int × Int)) (r g b : Int),
        ((on_eyes_color st r g b).1).length = 24
        ∧ ∀ i : Nat, i < 24 → ((on_eyes_color st r g b).1)[i]? = some (r, g, b))
    ∧ (∀ (st : List (Int × Int × Int)) (idx : Int) (r g b : Int)
        (st2 : List (Int × Int × Int)) (cmd : String),
        st.length = 24 → 0 ≤ idx → idx < 24 →
        on_eyes_set_pixel st idx r g b = some (st2, cmd) →
        st2.length = 24
        ∧ st2[idx.toNat]? = some (r, g, b)
        ∧ ∀ j : Nat, j ≠ idx.toNat → st2[j]? = st[j]?)
    ∧ (∀ st : List (Int × Int × Int),
        handle_get_color st = ⟨"enclosure.eyes.rgb", [("pixels", PyVal.pyPixels st)]⟩) := by
  refine ⟨by decide, ?_, ?_, ?_, fun st => rfl⟩
  · intro i hi
    simp only [init_current_rgb, _num_pixels, List.getElem?_replicate]
    rw [if_pos (by omega)]
  · intro st r g b
    constructor
    · simp [on_eyes_color, _num_pixels]
    · intro i hi
      simp only [on_eyes_color, _num_pixels, List.getElem?_replicate]
      rw [if_pos (by omega)]
  · intro st idx r g b st2 cmd hlen h0 hlt hset
    have hidx : idx.toNat < st.length := by omega
    simp only [on_eyes_set_pixel, pyListSet, if_pos h0, if_pos hidx] at hset
    simp only [Option.some.injEq, Prod.mk.injEq] at hset
    obtain ⟨hst2, -⟩ := hset
    subst hst2
    refine ⟨by rw [List.length_set]; exact hlen, ?_, ?_⟩
    · exact List.getElem?_set_eq_of_lt _ hidx
    · intro j hj
      exact List.getElem?_set_ne (fun h => hj h.symm)

/-- Witness for C10: setting pixel 3 on the initial snapshot keeps the length
at 24, updates entry 3 and leaves entry 0 untouched. -/
theorem eye_rgb_snapshot_invariants_witness :
    (init_current_rgb.set 3 (10, 20, 30)).length = 24
    ∧ (init_current_rgb.set 3 (10, 20, 30))[(3 : Int).toNat]? = some (10, 20, 30)
    ∧ ∀ j : Nat, j ≠ (3 : Int).toNat →
        (init_current_rgb.set 3 (10, 20, 30))[j]? = init_current_rgb[j]? :=
  eye_rgb_snapshot_invariants.2.2.2.1 init_current_rgb 3 10 20 30
    (init_current_rgb.set 3 (10, 20, 30))
    ("eyes.set=" ++ toString (3 : Int) ++ "," ++ toString (packRGB 10 20 30))
    (by decide) (by decide) (by decide) (by decide)

/-- Claim C1: on_display enqueues exactly two fragments if and only if the
formatted icon command exceeds 60 characters; in that case fragment 1 is the
first 31 characters plus a literal dollar sign (length 32, ending in it),
fragment 2 is the prefix mouth.icon= plus a dollar sign followed by the
characters from offset 31 onward, and dropping fragment 1's final character
and fragment 2's 12-character prefix reconstructs the command; at 60
characters or fewer the single enqueued fragment is the command itself. -/
theorem on_display_chunking (xOffset yOffset : Int) (clearPrev : String)
    (code : List Char) :
    ((display_fragments xOffset yOffset clearPrev code).length = 2 ↔
      60 < (mkIconMessage xOffset yOffset clearPrev code).length)
    ∧ (60 < (mkIconMessage xOffset yOffset clearPrev code).length →
        display_fragments xOffset yOffset clearPrev code =
          [(mkIconMessage xOffset yOffset clearPrev code).take 31 ++ ['$'],
           ("mouth.icon=$").data ++ (mkIconMessage xOffset yOffset clearPrev code).drop 31]
        ∧ ((mkIconMessage xOffset yOffset clearPrev code).take 31 ++ ['$']).length = 32
        ∧ ((mkIconMessage xOffset yOffset clearPrev code).take 31 ++ ['$']).getLast? =
            some '$'
        ∧ ((mkIconMessage xOffset yOffset clearPrev code).take 31 ++ ['$']).dropLast ++
            (("mouth.icon=$").data ++
              (mkIconMessage xOffset yOffset clearPrev code).drop 31).drop 12 =
            mkIconMessage xOffset yOffset clearPrev code)
    ∧ ((mkIconMessage xOffset yOffset clearPrev code).length ≤ 60 →
        display_fragments xOffset yOffset clearPrev code =
          [mkIconMessage xOffset yOffset clearPrev code]) := by
  refine ⟨?_, ?_, ?_⟩
  · by_cases h : 60 < (mkIconMessage xOffset yOffset clearPrev code).length <;>
      simp [display_fragments, on_display, h]
  · intro h
    refine ⟨?_, ?_, ?_, ?_⟩
    · simp [display_fragments, on_display, h]
    · simp only [List.length_append, List.length_take, List.length_cons, List.length_nil]
      omega
    · exact List.getLast?_concat _
    · rw [List.dropLast_concat,
        List.drop_left' (by decide : ("mouth.icon=$").data.length = 12),
        List.take_append_drop]
  · intro h
    have h2 : ¬ 60 < (mkIconMessage xOffset yOffset clearPrev code).length := by omega
    simp [display_fragments, on_display, h2]

/-- Witness for C1: a 50-character image code yields a 74-character command,
split into the two fragments; an empty code yields a 24-character command,
enqueued whole. -/
theorem on_display_chunking_witness :
    (display_fragments 1 0 "" (List.replicate 50 'A') =
       [(mkIconMessage 1 0 "" (List.replicate 50 'A')).take 31 ++ ['$'],
        ("mouth.icon=$").data ++ (mkIconMessage 1 0 "" (List.replicate 50 'A')).drop 31]
     ∧ ((mkIconMessage 1 0 "" (List.replicate 50 'A')).take 31 ++ ['$']).length = 32
     ∧ ((mkIconMessage 1 0 "" (List.replicate 50 'A')).take 31 ++ ['$']).getLast? =
         some '$'
     ∧ ((mkIconMessage 1 0 "" (List.replicate 50 'A')).take 31 ++ ['$']).dropLast ++
         (("mouth.icon=$").data ++
           (mkIconMessage 1 0 "" (List.replicate 50 'A')).drop 31).drop 12 =
         mkIconMessage 1 0 "" (List.replicate 50 'A'))
    ∧ display_fragments 2 0 "" [] = [mkIconMessage 2 0 "" []] :=
  ⟨(on_display_chunking 1 0 "" (List.replicate 50 'A')).2.1 (by decide),
   (on_display_chunking 2 0 "" []).2.2 (by decide)⟩

/-- Claim C2 counterexample: the claim states that the pass-through emit
happens if and only if the line contains none of the marker substrings, but a
line equal to the marker volume.up still receives the pass-through emit
(suppression is keyed on mycroft.stop alone), so the equivalence fails. -/
theorem passthrough_iff_unmarked_counterexample :
    ¬ ((passthrough_acts ("volume.up") ≠ []) ↔
        (∀ m ∈ markers, pyIn m ("volume.up") = false)) := by
  decide

/-- Claim C2 as amended: the pass-through emit of the raw line happens if and
only if the line does not contain mycroft.stop (lines containing other markers
still get it, alongside their marker notifications); when it happens it is
exactly one emit of the raw line, and a line containing no marker at all makes
process publish exactly that one pass-through emit and nothing else. -/
theorem passthrough_suppressed_only_by_stop (data : String) :
    (passthrough_acts data ≠ [] ↔ pyIn ("mycroft.stop") data = false)
    ∧ (pyIn ("mycroft.stop") data = false →
        passthrough_acts data = [BusAct.emit ⟨data, []⟩])
    ∧ ((∀ m ∈ markers, pyIn m data = false) →
        process data = [BusAct.emit ⟨data, []⟩]) := by
  refine ⟨?_, ?_, ?_⟩
  · cases hb : pyIn ("mycroft.stop") data <;> simp [passthrough_acts, hb]
  · intro h
    simp [passthrough_acts, h]
  · intro h
    simp only [markers, List.mem_cons, List.not_mem_nil, or_false, forall_eq_or_imp,
      forall_eq] at h
    obtain ⟨h1, h2, h3, h4, h5, h6, h7, h8, h9, h10⟩ := h
    simp [process, passthrough_acts, version_acts, stop_acts, volume_up_acts,
      volume_down_acts, shutdown_acts, reboot_acts, setwifi_acts, factory_reset_acts,
      ssh_enable_acts, ssh_disable_acts, h1, h2, h3, h4, h5, h6, h7, h8, h9, h10]

/-- Witness for C2's amended theorem: the unmarked line hello yields exactly
its single pass-through emit. -/
theorem passthrough_suppressed_only_by_stop_witness :
    process ("hello") = [BusAct.emit ⟨"hello", []⟩] :=
  (passthrough_suppressed_only_by_stop ("hello")).2.2 (by decide)

/-- Claim C3: on a line containing unit.shutdown, process performs, as five
consecutive actions in this order, the eyes-color emit with r = 70, g = 65,
b = 69, the timed-spin emit with length 12000, the mouth-reset emit, a 500
millisecond sleep (satisfying the at-least-500ms settle delay), and only then
the system-shutdown emit. -/
theorem process_unit_shutdown_sequence (data : String)
    (h : pyIn ("unit.shutdown") data = true) :
    shutdown_sequence <:+: process data := by
  refine ⟨passthrough_acts data ++ version_acts data ++ stop_acts data ++
    volume_up_acts data ++ volume_down_acts data,
    reboot_acts data ++ setwifi_acts data ++ factory_reset_acts data ++
    ssh_enable_acts data ++ ssh_disable_acts data, ?_⟩
  simp [process, shutdown_acts, h, shutdown_sequence, List.append_assoc]

/-- Witness for C3 at the line unit.shutdown itself. -/
theorem process_unit_shutdown_sequence_witness :
    shutdown_sequence <:+: process ("unit.shutdown") :=
  process_unit_shutdown_sequence ("unit.shutdown") (by decide)

/-- Claim C4: the writer's command queue has capacity 16 and is strictly FIFO:
draining with all-successful writes transmits the commands in exactly their
enqueue order (each with its newline appended); enqueueing always succeeds
while the queue is below capacity and appends at the tail without dropping,
and a put on a full queue blocks (modelled as none) rather than raising or
dropping the command. -/
theorem writer_queue_fifo_bounded :
    enclosure_writer_commands.capacity = 16
    ∧ (∀ (cs : List String) (q2 : CmdQueue),
        write_all enclosure_writer_commands cs = some q2 →
        flush_run q2 (List.replicate cs.length WriteOutcome.ok) =
          cs.map (fun c => c ++ "\n"))
    ∧ (∀ cs : List String, cs.length ≤ 16 →
        ∃ q2, write_all enclosure_writer_commands cs = some q2)
    ∧ (∀ (q : CmdQueue) (c : String), q.items.length = q.capacity → write q c = none)
    ∧ (∀ (q : CmdQueue) (c : String) (q2 : CmdQueue),
        write q c = some q2 → q2.items = q.items ++ [c]) := by
  refine ⟨rfl, ?_, ?_, ?_, ?_⟩
  · intro cs q2 h
    obtain ⟨hcap, hitems⟩ := write_all_spec cs enclosure_writer_commands q2 h
    simp only [enclosure_writer_commands, List.nil_append] at hcap hitems
    cases q2 with
    | mk cap items =>
      simp only at hcap hitems
      subst hcap
      subst hitems
      simpa using flush_run_ok items 16
  · intro cs h
    exact write_all_total cs enclosure_writer_commands
      (by simpa [enclosure_writer_commands] using h)
  · intro q c h
    simp [write, queue_put, h]
  · intro q c q2 h
    simp only [write, queue_put] at h
    by_cases hlt : q.items.length < q.capacity
    · rw [if_pos hlt] at h
      cases h
      rfl
    · rw [if_neg hlt] at h
      cases h

/-- Witness for C4: enqueueing a, b, c into the fresh queue and draining
transmits them in order, and a put on a full 16-slot queue blocks. -/
theorem writer_queue_fifo_bounded_witness :
    flush_run ⟨16, ["a", "b", "c"]⟩ (List.replicate 3 WriteOutcome.ok) =
      ["a\n", "b\n", "c\n"]
    ∧ write ⟨16, List.replicate 16 ("x")⟩ ("y") = none := by
  constructor
  · have h := writer_queue_fifo_bounded.2.1 ["a", "b", "c"] ⟨16, ["a", "b", "c"]⟩
      (by decide)
    simpa using h
  · exact writer_queue_fifo_bounded.2.2.2.1 ⟨16, List.replicate 16 ("x")⟩ ("y")
      (by decide)

/-- Claim C5 counterexample: the claim states every dequeued command is
acknowledged with task_done regardless of write outcome, but task_done() sits
after serial.write inside the try block, so a raised write skips it: on queue
["a"] with a raised write the recorded taskDone is false. -/
theorem flush_task_done_counterexample :
    ¬ (∀ (q : CmdQueue) (outcome : WriteOutcome) (q2 : CmdQueue) (r : FlushResult),
        flush_step q outcome = some (q2, r) → r.taskDone = true) := by
  intro h
  have := h ⟨16, ["a"]⟩ (WriteOutcome.raised ("io")) ⟨16, []⟩ ⟨none, false, true, true⟩
    (by decide)
  simp at this

/-- Claim C5 as amended: a write failure is logged and the writer loop
continues with the next command rather than terminating (the failed command
having been dequeued), but task_done is acknowledged only when the serial
write succeeds, since the exception skips it. -/
theorem flush_failure_isolated (cap : Nat) (c : String) (rest : List String)
    (outcome : WriteOutcome) (q2 : CmdQueue) (r : FlushResult)
    (h : flush_step ⟨cap, c :: rest⟩ outcome = some (q2, r)) :
    q2 = ⟨cap, rest⟩
    ∧ r.continues = true
    ∧ (r.logged = true ↔ outcome ≠ WriteOutcome.ok)
    ∧ (r.taskDone = true ↔ outcome = WriteOutcome.ok)
    ∧ (outcome = WriteOutcome.ok → r.written = some (c ++ "\n")) := by
  cases outcome with
  | ok =>
    simp only [flush_step, Option.some.injEq, Prod.mk.injEq] at h
    obtain ⟨hq, hr⟩ := h
    subst hq
    subst hr
    simp
  | raised e =>
    simp only [flush_step, Option.some.injEq, Prod.mk.injEq] at h
    obtain ⟨hq, hr⟩ := h
    subst hq
    subst hr
    simp

/-- Witness for C5's amended theorem at a raised write on queue ["a"]. -/
theorem flush_failure_isolated_witness :
    (⟨16, ([] : List String)⟩ : CmdQueue) = ⟨16, []⟩
    ∧ ((⟨none, false, true, true⟩ : FlushResult).continues = true)
    ∧ ((⟨none, false, true, true⟩ : FlushResult).logged = true ↔
        WriteOutcome.raised ("io") ≠ WriteOutcome.ok)
    ∧ ((⟨none, false, true, true⟩ : FlushResult).taskDone = true ↔
        WriteOutcome.raised ("io") = WriteOutcome.ok)
    ∧ (WriteOutcome.raised ("io") = WriteOutcome.ok →
        (⟨none, false, true, true⟩ : FlushResult).written = some ("a" ++ "\n")) :=
  flush_failure_isolated 16 "a" [] (WriteOutcome.raised ("io")) ⟨16, []⟩
    ⟨none, false, true, true⟩ (by decide)

/-- Claim C6: the reader decodes an invalid byte sequence permissively (the
replacement character standing in for undecodable bytes) instead of
discarding the line, a readline exception is caught without ending the loop so
the next well-formed line is still processed, the loop handles every event
while no stop occurs, and it exits exactly when the alive flag is cleared by a
stop. -/
theorem reader_error_isolated :
    (∀ (e : String) (rest : List ReadEvent),
      read_run (ReadEvent.readError e :: rest) = read_run rest)
    ∧ (∀ (bs : List Nat) (rest : List ReadEvent),
        strip_terminator bs ≠ [] →
        decode_strict (strip_terminator bs) = none →
        read_run (ReadEvent.line bs :: rest) =
          String.mk (decode_replace (strip_terminator bs)) :: read_run rest)
    ∧ (∀ events : List ReadEvent, (∀ ev ∈ events, ev ≠ ReadEvent.stop) →
        read_run events = events.flatMap read_iteration)
    ∧ (∀ rest : List ReadEvent, read_run (ReadEvent.stop :: rest) = [])
    ∧ decode_replace [255, 104, 105] = [replacement_char, Char.ofNat 104, Char.ofNat 105] := by
  refine ⟨fun e rest => by simp [read_run, read_iteration], ?_, ?_, fun rest => rfl,
    by decide⟩
  · intro bs rest h1 h2
    have hE : (strip_terminator bs).isEmpty = false := by
      cases hs : strip_terminator bs with
      | nil => exact absurd hs h1
      | cons a t => rfl
    simp [read_run, read_iteration, decode_line, hE, h2]
  · intro events h
    induction events with
    | nil => rfl
    | cons ev rest ih =>
      have hev : ev ≠ ReadEvent.stop := h ev (List.mem_cons_self ev rest)
      have hrest : ∀ e ∈ rest, e ≠ ReadEvent.stop := fun e he =>
        h e (List.mem_cons_of_mem ev he)
      cases ev with
      | line bs => simp [read_run, ih hrest]
      | readError e => simp [read_run, ih hrest]
      | stop => exact absurd rfl hev

/-- Witness for C6: a line with an invalid leading byte is still processed,
decoded with the replacement character, and a following readError does not
stop the loop. -/
theorem reader_error_isolated_witness :
    read_run (ReadEvent.line [255, 104, 105, 13, 10] :: [ReadEvent.readError ("x")]) =
      String.mk (decode_replace (strip_terminator [255, 104, 105, 13, 10])) ::
        read_run [ReadEvent.readError ("x")] :=
  reader_error_isolated.2.1 [255, 104, 105, 13, 10] [ReadEvent.readError ("x")]
    (by decide) (by decide)
